import Mathlib

/-!
Verification of the cmgn/compiler front end (lexer + parser + AST).

The definitions below are a shallow embedding of the Go sources:
  * token model       : token/token.go
  * lexer             : the `package lexer` source (Lex, lexerState.next,
                        readIdentifier, readInteger, byteTokens, ...)
  * AST node model    : package ast (Statement/Expression/Type variants)
  * parser            : package parser (Parse, statement, block, typedecl,
                        expression .. terminal)

Modelling conventions:
  * Go strings are modelled as `String` / `List Char` (all inputs of interest
    are ASCII, where Go's byte indexing and Lean's character lists agree).
  * The lexer's cursor (`pos` into an immutable string) is modelled by the
    remaining suffix of the input; the parser keeps Go's integer cursor, with
    the immutable token slice passed as a fixed parameter (Go stores it in the
    receiver struct and never writes it).
  * Go's nil-able interface results of the parsing functions are `Option`;
    the side-channel `err` field is carried in the explicit state.
  * A Go runtime panic (an out-of-range index) is a distinguished outcome
    (`panicked`), not a normal return.
  * Recursive parsing functions take a fuel argument (structural recursion);
    `Parse` supplies a fuel that dominates the recursion depth of the Go
    parser on its token list, so fuel exhaustion (reported through a marker
    error) is unreachable.
  * `Type.String()` on token types is generated by `stringer -linecomment`;
    per the comment in token.go ("The comment on the right of the type is
    what it will be displayed as in errors"), it returns the line comments
    reproduced in `TokenType.str`.
-/

namespace Compiler

/-- SourceInformation from token/token.go: file name and line of a token. -/
structure SourceInformation where
  FileName : String
  Line : Nat
deriving DecidableEq, Repr

/-- SourceInformation.String(): FileName + ":" + strconv.Itoa(Line). -/
def SourceInformation.render (si : SourceInformation) : String :=
  si.FileName ++ ":" ++ toString si.Line

/-- token.Type from token/token.go (the full, current enumeration). -/
inductive TokenType where
  | TokInteger
  | TokIdentifier
  | TokAssign
  | TokEquals
  | TokLessThan
  | TokGreaterThan
  | TokPlus
  | TokDash
  | TokStar
  | TokFwdSlash
  | TokAmpersand
  | TokIf
  | TokElse
  | TokWhile
  | TokLeftBracket
  | TokRightBracket
  | TokLeftCurly
  | TokRightCurly
  | TokLeftSquare
  | TokRightSquare
  | TokSemiColon
  | TokVar
  | TokInt
  | TokArray
  | TokOf
  | TokPtr
  | TokTo
  | TokChar
  | TokNotEqual
  | TokNot
deriving DecidableEq, Repr

/-- token.Type.String(): the stringer -linecomment output, i.e. the line
comments next to each constant in token.go (the TokLeftSquare comment in the
source reads `']'`, a typo faithfully kept). -/
def TokenType.str : TokenType → String
  | .TokInteger => "integer"
  | .TokIdentifier => "identifier"
  | .TokAssign => "'='"
  | .TokEquals => "'=='"
  | .TokLessThan => "'<'"
  | .TokGreaterThan => "'>'"
  | .TokPlus => "'+'"
  | .TokDash => "'-'"
  | .TokStar => "'*'"
  | .TokFwdSlash => "'/'"
  | .TokAmpersand => "'&'"
  | .TokIf => "'if'"
  | .TokElse => "'else'"
  | .TokWhile => "'while'"
  | .TokLeftBracket => "'('"
  | .TokRightBracket => "')'"
  | .TokLeftCurly => "'\x7b'"
  | .TokRightCurly => "'\x7d'"
  | .TokLeftSquare => "']'"
  | .TokRightSquare => "']'"
  | .TokSemiColon => "';'"
  | .TokVar => "'var'"
  | .TokInt => "'int'"
  | .TokArray => "'array'"
  | .TokOf => "'of'"
  | .TokPtr => "'ptr'"
  | .TokTo => "'to'"
  | .TokChar => "'char'"
  | .TokNotEqual => "'!='"
  | .TokNot => "'!'"

/-- token.Token: type, string value, and source information. -/
structure Token where
  typ : TokenType
  value : String
  source : SourceInformation
deriving DecidableEq, Repr

/-- Token.String(): integers and identifiers are shown quoted by value,
every other token by its type's display string. -/
def Token.str (t : Token) : String :=
  if t.typ = .TokInteger ∨ t.typ = .TokIdentifier then
    "'" ++ t.value ++ "'"
  else
    t.typ.str

/-- token.ConstantTokens: constant token type → its canonical spelling. -/
def ConstantTokens : TokenType → Option String
  | .TokAssign => some "="
  | .TokEquals => some "=="
  | .TokLessThan => some "<"
  | .TokGreaterThan => some ">"
  | .TokPlus => some "+"
  | .TokDash => some "-"
  | .TokStar => some "*"
  | .TokFwdSlash => some "/"
  | .TokAmpersand => some "&"
  | .TokIf => some "if"
  | .TokElse => some "else"
  | .TokWhile => some "while"
  | .TokLeftBracket => some "("
  | .TokRightBracket => some ")"
  | .TokLeftCurly => some "\x7b"
  | .TokRightCurly => some "\x7d"
  | .TokLeftSquare => some "["
  | .TokRightSquare => some "]"
  | .TokSemiColon => some ";"
  | .TokVar => some "var"
  | .TokInt => some "int"
  | .TokArray => some "array"
  | .TokOf => some "of"
  | .TokPtr => some "ptr"
  | .TokTo => some "to"
  | .TokChar => some "char"
  | .TokNotEqual => some "!="
  | .TokNot => some "!"
  | _ => none

/-- token.Keywords: identifier text → keyword token type. -/
def Keywords : String → Option TokenType
  | "if" => some .TokIf
  | "while" => some .TokWhile
  | "else" => some .TokElse
  | "var" => some .TokVar
  | "int" => some .TokInt
  | "array" => some .TokArray
  | "of" => some .TokOf
  | "ptr" => some .TokPtr
  | "to" => some .TokTo
  | "char" => some .TokChar
  | _ => none

/-! The lexer (package lexer). -/

/-- lexer.isSpace. -/
def isSpace (b : Char) : Bool :=
  b == ' ' || b == '\n' || b == '\t' || b == '\r'

/-- lexer.isAlpha: ASCII letters and underscore. -/
def isAlpha (b : Char) : Bool :=
  decide (97 ≤ b.toNat ∧ b.toNat ≤ 122) ||
  decide (65 ≤ b.toNat ∧ b.toNat ≤ 90) ||
  b == '_'

/-- lexer.isDigit. -/
def isDigit (b : Char) : Bool :=
  decide (48 ≤ b.toNat ∧ b.toNat ≤ 57)

/-- lexer.byteTokens: the single-byte symbols the lexer recognises.  The
source notes that tokens such as `=` are kept out because they could be
multibyte; `&`, `[` and `]` are absent from the map in the source. -/
def byteTokens : Char → Option TokenType
  | '+' => some .TokPlus
  | '-' => some .TokDash
  | '*' => some .TokStar
  | ';' => some .TokSemiColon
  | '/' => some .TokFwdSlash
  | '(' => some .TokLeftBracket
  | ')' => some .TokRightBracket
  | '\x7b' => some .TokLeftCurly
  | '\x7d' => some .TokRightCurly
  | '<' => some .TokLessThan
  | '>' => some .TokGreaterThan
  | _ => none

/-- lexerState.buildConstantToken: looks the canonical value up in
ConstantTokens; `none` corresponds to the "called with non-constant token"
panic in the source. -/
def buildConstantToken (fname : String) (line : Nat) (typ : TokenType) : Option Token :=
  (ConstantTokens typ).map (fun v => ⟨typ, v, ⟨fname, line⟩⟩)

/-- Result of one lexerState.next call: a token plus the updated line counter
and remaining input, normal end of input (the nil return with no error), a
runtime panic (out-of-range index), or the err field set (nil with error). -/
inductive NextRes where
  | token (t : Token) (line : Nat) (rest : List Char)
  | stop
  | panicked
  | failed (msg : String)
deriving DecidableEq, Repr

/-- lexerState.next, with the cursor modelled as the remaining input suffix.
The branch order follows the source: whitespace, identifiers/keywords,
integers, byteTokens, then the `=` switch whose lookahead `l.curr()` reads
`l.source[l.pos]` without a bounds check — when `=` is the last character
that read is out of range (`panicked`).  Any other character sets the error
"invalid character: c". -/
def next (fname : String) : Nat → List Char → NextRes
  | _, [] => .stop
  | line, c :: cs =>
    if isSpace c then
      next fname (if c == '\n' then line + 1 else line) cs
    else if isAlpha c then
      let run := List.takeWhile (fun b => isAlpha b || isDigit b) (c :: cs)
      let rest := List.dropWhile (fun b => isAlpha b || isDigit b) (c :: cs)
      let ident := String.mk run
      match Keywords ident with
      | some typ =>
        match buildConstantToken fname line typ with
        | some t => .token t line rest
        | none => .panicked
      | none => .token ⟨.TokIdentifier, ident, ⟨fname, line⟩⟩ line rest
    else if isDigit c then
      let run := List.takeWhile isDigit (c :: cs)
      let rest := List.dropWhile isDigit (c :: cs)
      .token ⟨.TokInteger, String.mk run, ⟨fname, line⟩⟩ line rest
    else
      match byteTokens c with
      | some typ =>
        match buildConstantToken fname line typ with
        | some t => .token t line cs
        | none => .panicked
      | none =>
        if c == '=' then
          match cs with
          | [] => .panicked
          | d :: ds =>
            if d == '=' then
              match buildConstantToken fname line .TokEquals with
              | some t => .token t line ds
              | none => .panicked
            else
              match buildConstantToken fname line .TokAssign with
              | some t => .token t line cs
              | none => .panicked
        else
          .failed ("invalid character: " ++ String.mk [c])

/-- Result of lexer.Lex: the token slice, or nil with an error, or a runtime
panic. -/
inductive LexResult where
  | ok (toks : List Token)
  | failed (msg : String)
  | panicked
deriving DecidableEq, Repr

/-- The loop of lexer.Lex: while input remains, take the next token; a nil
token ends the loop, and the err field decides the outcome.  Each produced
token consumes at least one character, so the fuel `Lex` supplies is never
exhausted. -/
def lexLoop (fname : String) : Nat → Nat → List Char → LexResult
  | 0, _, _ => .panicked
  | fuel + 1, line, rest =>
    if rest.isEmpty then .ok []
    else
      match next fname line rest with
      | .stop => .ok []
      | .panicked => .panicked
      | .failed msg => .failed msg
      | .token t line' rest' =>
        match lexLoop fname fuel line' rest' with
        | .ok ts => .ok (t :: ts)
        | r => r

/-- lexer.Lex(filename, contents): line counter starts at 1. -/
def Lex (fname source : String) : LexResult :=
  lexLoop fname (source.length + 1) 1 source.data

/-- Whether the character list `nee` occurs at the start of `hay`. -/
def strStarts : List Char → List Char → Bool
  | _, [] => true
  | [], _ :: _ => false
  | a :: as, b :: bs => a == b && strStarts as bs

/-- Whether the character list `nee` occurs anywhere inside `hay`. -/
def strHasInfix : List Char → List Char → Bool
  | [], nee => strStarts [] nee
  | a :: as, nee => strStarts (a :: as) nee || strHasInfix as nee

/-! The AST node model (package ast). -/

/-- ast.UnaryOperatorType. -/
inductive UnaryOperatorType where
  | unaryDereference
  | unaryMinus
  | unaryAddress
deriving DecidableEq, Repr

/-- ast.BinaryOperatorType. -/
inductive BinaryOperatorType where
  | binaryAdd
  | binarySub
  | binaryMul
  | binaryDiv
  | binaryLessThan
  | binaryGreaterThan
  | binaryEqual
  | binaryNotEqual
deriving DecidableEq, Repr

/-- ast.PrimitiveType (IntType, CharType). -/
inductive PrimitiveType where
  | intType
  | charType
deriving DecidableEq, Repr

/-- ast.Type variants: Primitive, ArrayType (Length is a Go int) and
PointerType. -/
inductive AType where
  | primitive (source : SourceInformation) (typ : PrimitiveType)
  | arrayType (source : SourceInformation) (length : Int) (typ : AType)
  | pointerType (source : SourceInformation) (typ : AType)
deriving DecidableEq, Repr

/-- ast.Expression variants: Integer, Variable, BinaryOperator,
UnaryOperator and Subscript (the Subscript node carries Value and Index,
per its construction in the parser). -/
inductive Expr where
  | integer (source : SourceInformation) (value : String)
  | variable (source : SourceInformation) (value : String)
  | binary (typ : BinaryOperatorType) (left : Expr) (right : Expr)
  | unary (typ : UnaryOperatorType) (value : Expr)
  | subscript (value : Expr) (index : Expr)
deriving DecidableEq, Repr

/-- ast.Statement variants: Empty, ExpressionStatement, Assignment,
Declaration, IfStatement, WhileStatement, BlockStatement. -/
inductive Stmt where
  | empty (source : SourceInformation)
  | exprStmt (expression : Expr)
  | assignment (source : SourceInformation) (left : Expr) (right : Expr)
  | declaration (source : SourceInformation) (name : String) (typ : AType)
  | ifStmt (source : SourceInformation) (condition : Expr)
      (statement1 : Stmt) (statement2 : Stmt)
  | whileStmt (source : SourceInformation) (condition : Expr) (statement : Stmt)
  | block (source : SourceInformation) (statements : List Stmt)

mutual

/-- Structural equality for statements (the automatic derivation does not
handle the nested statement list of blocks). -/
def stmtBEq : Stmt → Stmt → Bool
  | .empty a, .empty b => a == b
  | .exprStmt a, .exprStmt b => a == b
  | .assignment s a b, .assignment s' a' b' => s == s' && a == a' && b == b'
  | .declaration s n t, .declaration s' n' t' => s == s' && n == n' && t == t'
  | .ifStmt s c a b, .ifStmt s' c' a' b' =>
    s == s' && c == c' && stmtBEq a a' && stmtBEq b b'
  | .whileStmt s c a, .whileStmt s' c' a' => s == s' && c == c' && stmtBEq a a'
  | .block s xs, .block s' xs' => s == s' && stmtListBEq xs xs'
  | _, _ => false

/-- `stmtBEq` over statement lists. -/
def stmtListBEq : List Stmt → List Stmt → Bool
  | [], [] => true
  | x :: xs, y :: ys => stmtBEq x y && stmtListBEq xs ys
  | _, _ => false

end

instance : BEq Stmt := ⟨stmtBEq⟩

/-! The parser (package parser). -/

/-- A parser error: the source location rendered into the "[file:line]"
prefix of the Go error, and the rest of the message. -/
structure ParseError where
  source : SourceInformation
  msg : String
deriving DecidableEq, Repr

/-- The mutable part of the parser struct: cursor and error slot (the token
slice is immutable and passed separately). -/
structure PState where
  pos : Nat
  err : Option ParseError
deriving DecidableEq, Repr

/-- Marker for fuel exhaustion; unreachable for the fuel Parse supplies. -/
def fuelError : ParseError := ⟨⟨"", 0⟩, "internal: recursion fuel exhausted"⟩

/-- parser.curr(): nil at end of input, otherwise the token at the cursor. -/
def currTok (toks : List Token) (st : PState) : Option Token :=
  toks.get? st.pos

/-- parser.expect(typ): on a type match advance and succeed; otherwise set
the error field.  At end of input the message names the previous token
(`p.toks[p.pos-1]`; with no previous token that Go read panics, modelled by
a marker error). -/
def expect (toks : List Token) (typ : TokenType) (st : PState) : Bool × PState :=
  match toks.get? st.pos with
  | none =>
    match toks.get? (st.pos - 1) with
    | some prev =>
      (false, { st with err := some ⟨prev.source,
        "unexpected end of input after " ++ prev.str ++ ", expected " ++ typ.str⟩ })
    | none => (false, { st with err := some ⟨⟨"", 0⟩, "panic: index out of range"⟩ })
  | some curr =>
    if curr.typ = typ then (true, { st with pos := st.pos + 1 })
    else
      (false, { st with err := some ⟨curr.source,
        "expected " ++ typ.str ++ ", got " ++ curr.str⟩ })

/-- parser.unexpected(curr). -/
def unexpected (curr : Token) (st : PState) : PState :=
  { st with err := some ⟨curr.source, "unexpected " ++ curr.str⟩ }

/-- parser.unexpectedEnd(): true (with the error set) iff the cursor is past
the tokens. -/
def unexpectedEnd (toks : List Token) (st : PState) : Bool × PState :=
  if toks.length ≤ st.pos then
    match toks.get? (st.pos - 1) with
    | some prev =>
      (true, { st with err := some ⟨prev.source,
        "unexpected end of input after " ++ prev.str⟩ })
    | none => (true, { st with err := some ⟨⟨"", 0⟩, "panic: index out of range"⟩ })
  else (false, st)

/-- strconv.Atoi: optional sign, a non-empty run of digits, 64-bit range.
(The value Go returns alongside a range error is not modelled; the parser
only uses the value when Atoi succeeds or substitutes zero.) -/
def goAtoi (s : String) : Option Int :=
  let digits : List Char → Option Int := fun cs =>
    if cs.isEmpty then none
    else if cs.all isDigit then
      some (cs.foldl (fun acc c => acc * 10 + (Int.ofNat c.toNat - 48)) 0)
    else none
  match s.data with
  | '-' :: rest => (digits rest).bind (fun n =>
      if -n ≥ -(9223372036854775808 : Int) then some (-n) else none)
  | '+' :: rest => (digits rest).bind (fun n =>
      if n ≤ 9223372036854775807 then some n else none)
  | cs => (digits cs).bind (fun n =>
      if n ≤ 9223372036854775807 then some n else none)

mutual

/-- parser.statement: the switch on the current token (';', 'var', 'if',
'while', '\x7b') and the expression/assignment fallthrough. -/
def pStatement (toks : List Token) : Nat → PState → Option Stmt × PState
  | 0, st => (none, { st with err := some fuelError })
  | fuel + 1, st =>
    match unexpectedEnd toks st with
    | (true, st') => (none, st')
    | (false, _) =>
      match toks.get? st.pos with
      | none => (none, st)
      | some curr =>
        match curr.typ with
        | .TokSemiColon =>
          (some (.empty curr.source), { st with pos := st.pos + 1 })
        | .TokVar =>
          let st1 : PState := { st with pos := st.pos + 1 }
          let name := ((toks.get? st1.pos).map (·.value)).getD ""
          match expect toks .TokIdentifier st1 with
          | (false, st2) => (none, st2)
          | (true, st2) =>
            match pTypedecl toks fuel st2 with
            | (none, st3) => (none, st3)
            | (some typ, st3) =>
              match expect toks .TokSemiColon st3 with
              | (false, st4) => (none, st4)
              | (true, st4) =>
                (some (.declaration curr.source name typ), st4)
        | .TokIf =>
          let st1 := (expect toks .TokIf st).2
          match pExpression toks fuel st1 with
          | (none, st2) => (none, st2)
          | (some cond, st2) =>
            match pStatement toks fuel st2 with
            | (none, st3) => (none, st3)
            | (some stmt1, st3) =>
              match toks.get? st3.pos with
              | none =>
                (some (.ifStmt curr.source cond stmt1 (.empty ⟨"", 0⟩)), st3)
              | some t =>
                if t.typ = .TokElse then
                  let st4 := (expect toks .TokElse st3).2
                  match pStatement toks fuel st4 with
                  | (none, st5) => (none, st5)
                  | (some stmt2, st5) =>
                    (some (.ifStmt curr.source cond stmt1 stmt2), st5)
                else
                  (some (.ifStmt curr.source cond stmt1 (.empty ⟨"", 0⟩)), st3)
        | .TokWhile =>
          let st1 := (expect toks .TokWhile st).2
          match pExpression toks fuel st1 with
          | (none, st2) => (none, st2)
          | (some cond, st2) =>
            match pStatement toks fuel st2 with
            | (none, st3) => (none, st3)
            | (some stmt, st3) =>
              (some (.whileStmt curr.source cond stmt), st3)
        | .TokLeftCurly => pBlock toks fuel st
        | _ =>
          match pExpression toks fuel st with
          | (none, st1) => (none, st1)
          | (some expr, st1) =>
            match unexpectedEnd toks st1 with
            | (true, st2) => (none, st2)
            | (false, _) =>
              match toks.get? st1.pos with
              | none => (none, st1)
              | some middle =>
                if middle.typ = .TokAssign then
                  let st2 := (expect toks .TokAssign st1).2
                  match pExpression toks fuel st2 with
                  | (none, st3) => (none, st3)
                  | (some right, st3) =>
                    match expect toks .TokSemiColon st3 with
                    | (false, st4) => (none, st4)
                    | (true, st4) =>
                      (some (.assignment middle.source expr right), st4)
                else
                  match expect toks .TokSemiColon st1 with
                  | (true, st2) => (some (.exprStmt expr), st2)
                  | (false, st2) => (none, st2)

/-- parser.block: '\x7b' {statement} '\x7d'. -/
def pBlock (toks : List Token) : Nat → PState → Option Stmt × PState
  | 0, st => (none, { st with err := some fuelError })
  | fuel + 1, st =>
    let src := (((toks.get? st.pos).map (·.source))).getD ⟨"", 0⟩
    match expect toks .TokLeftCurly st with
    | (false, st1) => (none, st1)
    | (true, st1) =>
      match pBlockItems toks fuel st1 with
      | (none, st2) => (none, st2)
      | (some stmts, st2) =>
        match expect toks .TokRightCurly st2 with
        | (false, st3) => (none, st3)
        | (true, st3) => (some (.block src stmts), st3)

/-- The statement-collecting loop inside parser.block. -/
def pBlockItems (toks : List Token) : Nat → PState → Option (List Stmt) × PState
  | 0, st => (none, { st with err := some fuelError })
  | fuel + 1, st =>
    match toks.get? st.pos with
    | none => (some [], st)
    | some t =>
      if t.typ = .TokRightCurly then (some [], st)
      else
        match pStatement toks fuel st with
        | (none, st1) => (none, st1)
        | (some s, st1) =>
          match pBlockItems toks fuel st1 with
          | (none, st2) => (none, st2)
          | (some ss, st2) => (some (s :: ss), st2)

/-- parser.typedecl: parenthesised type, 'int', 'char',
'array' '(' integer ')' 'of' type, 'ptr' 'to' type; anything else is
unexpected.  On an invalid array size Atoi fails: the error field is set
but the ArrayType node (with a zero length) is still returned. -/
def pTypedecl (toks : List Token) : Nat → PState → Option AType × PState
  | 0, st => (none, { st with err := some fuelError })
  | fuel + 1, st =>
    match unexpectedEnd toks st with
    | (true, st') => (none, st')
    | (false, _) =>
      match toks.get? st.pos with
      | none => (none, st)
      | some curr =>
        match curr.typ with
        | .TokLeftBracket =>
          let st1 := (expect toks .TokLeftBracket st).2
          match pTypedecl toks fuel st1 with
          | (none, st2) => (none, st2)
          | (some typ, st2) =>
            match expect toks .TokRightBracket st2 with
            | (false, st3) => (none, st3)
            | (true, st3) => (some typ, st3)
        | .TokInt =>
          let st1 := (expect toks .TokInt st).2
          (some (.primitive curr.source .intType), st1)
        | .TokChar =>
          let st1 := (expect toks .TokChar st).2
          (some (.primitive curr.source .charType), st1)
        | .TokArray =>
          let st1 := (expect toks .TokArray st).2
          match expect toks .TokLeftBracket st1 with
          | (false, st2) => (none, st2)
          | (true, st2) =>
            let size := (toks.get? st2.pos).getD ⟨.TokInteger, "", ⟨"", 0⟩⟩
            match expect toks .TokInteger st2 with
            | (false, st3) => (none, st3)
            | (true, st3) =>
              match expect toks .TokRightBracket st3 with
              | (false, st4) => (none, st4)
              | (true, st4) =>
                match expect toks .TokOf st4 with
                | (false, st5) => (none, st5)
                | (true, st5) =>
                  match pTypedecl toks fuel st5 with
                  | (none, st6) => (none, st6)
                  | (some typ, st6) =>
                    match goAtoi size.value with
                    | some sizeInt =>
                      (some (.arrayType curr.source sizeInt typ), st6)
                    | none =>
                      (some (.arrayType curr.source 0 typ),
                       { st6 with err := some ⟨size.source,
                         "invalid static array size '" ++ size.value ++ "'"⟩ })
        | .TokPtr =>
          let st1 := (expect toks .TokPtr st).2
          match expect toks .TokTo st1 with
          | (false, st2) => (none, st2)
          | (true, st2) =>
            match pTypedecl toks fuel st2 with
            | (none, st3) => (none, st3)
            | (some typ, st3) => (some (.pointerType curr.source typ), st3)
        | _ => (none, unexpected curr st)

/-- parser.expression = equality. -/
def pExpression (toks : List Token) : Nat → PState → Option Expr × PState
  | 0, st => (none, { st with err := some fuelError })
  | fuel + 1, st => pEquality toks fuel st

/-- parser.equality: comparison followed by the left-associative
('==' | '!=') loop. -/
def pEquality (toks : List Token) : Nat → PState → Option Expr × PState
  | 0, st => (none, { st with err := some fuelError })
  | fuel + 1, st =>
    match pComparison toks fuel st with
    | (none, st1) => (none, st1)
    | (some left, st1) => pEqualityLoop toks fuel left st1

/-- The operator loop of parser.equality. -/
def pEqualityLoop (toks : List Token) : Nat → Expr → PState → Option Expr × PState
  | 0, _, st => (none, { st with err := some fuelError })
  | fuel + 1, left, st =>
    match toks.get? st.pos with
    | none => (some left, st)
    | some curr =>
      match curr.typ with
      | .TokEquals =>
        let st1 := (expect toks .TokEquals st).2
        match pComparison toks fuel st1 with
        | (none, st2) => (none, st2)
        | (some right, st2) =>
          pEqualityLoop toks fuel (.binary .binaryEqual left right) st2
      | .TokNotEqual =>
        let st1 := (expect toks .TokNotEqual st).2
        match pComparison toks fuel st1 with
        | (none, st2) => (none, st2)
        | (some right, st2) =>
          pEqualityLoop toks fuel (.binary .binaryNotEqual left right) st2
      | _ => (some left, st)

/-- parser.comparison: summation with at most one '<'/'>' (no loop). -/
def pComparison (toks : List Token) : Nat → PState → Option Expr × PState
  | 0, st => (none, { st with err := some fuelError })
  | fuel + 1, st =>
    match pSummation toks fuel st with
    | (none, st1) => (none, st1)
    | (some left, st1) =>
      match toks.get? st1.pos with
      | none => (some left, st1)
      | some curr =>
        match curr.typ with
        | .TokLessThan =>
          let st2 := (expect toks .TokLessThan st1).2
          match pSummation toks fuel st2 with
          | (none, st3) => (none, st3)
          | (some right, st3) =>
            (some (.binary .binaryLessThan left right), st3)
        | .TokGreaterThan =>
          let st2 := (expect toks .TokGreaterThan st1).2
          match pSummation toks fuel st2 with
          | (none, st3) => (none, st3)
          | (some right, st3) =>
            (some (.binary .binaryGreaterThan left right), st3)
        | _ => (some left, st1)

/-- parser.summation: product followed by the left-associative
('+' | '-') loop. -/
def pSummation (toks : List Token) : Nat → PState → Option Expr × PState
  | 0, st => (none, { st with err := some fuelError })
  | fuel + 1, st =>
    match pProduct toks fuel st with
    | (none, st1) => (none, st1)
    | (some prod, st1) => pSummationLoop toks fuel prod st1

/-- The operator loop of parser.summation. -/
def pSummationLoop (toks : List Token) : Nat → Expr → PState → Option Expr × PState
  | 0, _, st => (none, { st with err := some fuelError })
  | fuel + 1, prod, st =>
    match toks.get? st.pos with
    | none => (some prod, st)
    | some curr =>
      match curr.typ with
      | .TokPlus =>
        let st1 := (expect toks .TokPlus st).2
        match pProduct toks fuel st1 with
        | (none, st2) => (none, st2)
        | (some right, st2) =>
          pSummationLoop toks fuel (.binary .binaryAdd prod right) st2
      | .TokDash =>
        let st1 := (expect toks .TokDash st).2
        match pProduct toks fuel st1 with
        | (none, st2) => (none, st2)
        | (some right, st2) =>
          pSummationLoop toks fuel (.binary .binarySub prod right) st2
      | _ => (some prod, st)

/-- parser.product: subscript followed by the left-associative
('*' | '/') loop. -/
def pProduct (toks : List Token) : Nat → PState → Option Expr × PState
  | 0, st => (none, { st with err := some fuelError })
  | fuel + 1, st =>
    match pSubscript toks fuel st with
    | (none, st1) => (none, st1)
    | (some term, st1) => pProductLoop toks fuel term st1

/-- The operator loop of parser.product. -/
def pProductLoop (toks : List Token) : Nat → Expr → PState → Option Expr × PState
  | 0, _, st => (none, { st with err := some fuelError })
  | fuel + 1, term, st =>
    match toks.get? st.pos with
    | none => (some term, st)
    | some curr =>
      match curr.typ with
      | .TokStar =>
        let st1 := (expect toks .TokStar st).2
        match pSubscript toks fuel st1 with
        | (none, st2) => (none, st2)
        | (some right, st2) =>
          pProductLoop toks fuel (.binary .binaryMul term right) st2
      | .TokFwdSlash =>
        let st1 := (expect toks .TokFwdSlash st).2
        match pSubscript toks fuel st1 with
        | (none, st2) => (none, st2)
        | (some right, st2) =>
          pProductLoop toks fuel (.binary .binaryDiv term right) st2
      | _ => (some term, st)

/-- parser.subscript: a terminal followed by the '[' expression ']' loop.
The Go loop does not test the sub-results for nil before building the
Subscript node; a nil operand can only arise with the error field already
set, in which case the embedding propagates the failure (Parse discards the
statement list whenever the error field is set). -/
def pSubscript (toks : List Token) : Nat → PState → Option Expr × PState
  | 0, st => (none, { st with err := some fuelError })
  | fuel + 1, st =>
    match pTerminal toks fuel st with
    | (term, st1) => pSubscriptLoop toks fuel term st1

/-- The indexing loop of parser.subscript. -/
def pSubscriptLoop (toks : List Token) : Nat → Option Expr → PState →
    Option Expr × PState
  | 0, _, st => (none, { st with err := some fuelError })
  | fuel + 1, term, st =>
    match toks.get? st.pos with
    | none => (term, st)
    | some curr =>
      if curr.typ = .TokLeftSquare then
        let st1 := (expect toks .TokLeftSquare st).2
        match pExpression toks fuel st1 with
        | (index, st2) =>
          match expect toks .TokRightSquare st2 with
          | (false, st3) => (none, st3)
          | (true, st3) =>
            match term, index with
            | some t, some i =>
              pSubscriptLoop toks fuel (some (.subscript t i)) st3
            | _, _ => pSubscriptLoop toks fuel none st3
      else (term, st)

/-- parser.terminal: integer, identifier, parenthesised expression, and the
unary prefixes '*', '-', '&' which recurse into terminal itself. -/
def pTerminal (toks : List Token) : Nat → PState → Option Expr × PState
  | 0, st => (none, { st with err := some fuelError })
  | fuel + 1, st =>
    match unexpectedEnd toks st with
    | (true, st') => (none, st')
    | (false, _) =>
      match toks.get? st.pos with
      | none => (none, st)
      | some curr =>
        match curr.typ with
        | .TokInteger =>
          (some (.integer curr.source curr.value), { st with pos := st.pos + 1 })
        | .TokIdentifier =>
          (some (.variable curr.source curr.value), { st with pos := st.pos + 1 })
        | .TokLeftBracket =>
          let st1 := (expect toks .TokLeftBracket st).2
          match pExpression toks fuel st1 with
          | (none, st2) => (none, st2)
          | (some expr, st2) =>
            match expect toks .TokRightBracket st2 with
            | (false, st3) => (none, st3)
            | (true, st3) => (some expr, st3)
        | .TokStar =>
          let st1 := (expect toks .TokStar st).2
          match pTerminal toks fuel st1 with
          | (none, st2) => (none, st2)
          | (some term, st2) =>
            (some (.unary .unaryDereference term), st2)
        | .TokDash =>
          let st1 := (expect toks .TokDash st).2
          match pTerminal toks fuel st1 with
          | (none, st2) => (none, st2)
          | (some term, st2) => (some (.unary .unaryMinus term), st2)
        | .TokAmpersand =>
          let st1 := (expect toks .TokAmpersand st).2
          match pTerminal toks fuel st1 with
          | (none, st2) => (none, st2)
          | (some term, st2) => (some (.unary .unaryAddress term), st2)
        | _ => (none, unexpected curr st)

end

/-- The statement-collecting loop of parser.Parse. -/
def pParseLoop (toks : List Token) : Nat → PState → List Stmt × PState
  | 0, st => ([], { st with err := some fuelError })
  | fuel + 1, st =>
    if toks.length ≤ st.pos then ([], st)
    else
      match pStatement toks fuel st with
      | (none, st1) => ([], st1)
      | (some s, st1) =>
        match pParseLoop toks fuel st1 with
        | (ss, st2) => (s :: ss, st2)

/-- Fuel that dominates the parser's recursion depth on `toks`: the
call-graph descends at most a fixed number of levels (under 32) between two
consumptions of a token or loop iterations, and every loop iteration
consumes at least one token. -/
def parseFuel (toks : List Token) : Nat :=
  32 * (toks.length + 2)

/-- parser.Parse: nil plus the error when the error field was set,
otherwise the statement list. -/
def Parse (toks : List Token) : Option (List Stmt) × Option ParseError :=
  match (pParseLoop toks (parseFuel toks) ⟨0, none⟩).2.err with
  | some e => (none, some e)
  | none => (some (pParseLoop toks (parseFuel toks) ⟨0, none⟩).1, none)

/-- Feeding a token sequence to the parser's expression rule, as the
claims about expression parsing do. -/
def expressionEntry (toks : List Token) : Option Expr × PState :=
  pExpression toks (parseFuel toks) ⟨0, none⟩

/-- Whether an optional expression is an address-of node applied to a
subscript node. -/
def isAddrOfSubscript : Option Expr → Bool
  | some (.unary .unaryAddress (.subscript _ _)) => true
  | _ => false

mutual

/-- Every IfStatement in a statement has the defaulted else slot: its
Statement2 is the zero-valued Empty node the parser supplies when no else
clause is present. -/
def ifElseDefaulted : Stmt → Bool
  | .empty _ => true
  | .exprStmt _ => true
  | .assignment _ _ _ => true
  | .declaration _ _ _ => true
  | .ifStmt _ _ s1 s2 =>
    (s2 == .empty ⟨"", 0⟩) && ifElseDefaulted s1
  | .whileStmt _ _ s => ifElseDefaulted s
  | .block _ ss => ifElseDefaultedList ss

/-- `ifElseDefaulted` over a statement list. -/
def ifElseDefaultedList : List Stmt → Bool
  | [] => true
  | s :: ss => ifElseDefaulted s && ifElseDefaultedList ss

end

/-! Concrete inputs used by the claims. -/

/-- A token with source file "test" and the given line. -/
def tk (t : TokenType) (v : String) (line : Nat) : Token :=
  ⟨t, v, ⟨"test", line⟩⟩

/-- The token sequence of `&x[0]` (hand-built: the lexer of this repository
rejects `&` and the square brackets, see the C2 theorem). -/
def c1toks : List Token :=
  [tk .TokAmpersand "&" 1, tk .TokIdentifier "x" 1, tk .TokLeftSquare "[" 1,
   tk .TokInteger "0" 1, tk .TokRightSquare "]" 1]

/-- The token sequence of `var x ;` with the semicolon on line 2, so that
the reported error location singles it out. -/
def c5toks : List Token :=
  [tk .TokVar "var" 1, tk .TokIdentifier "x" 1, tk .TokSemiColon ";" 2]

/-- A token sequence whose parse hits two failures: the invalid array-size
literal `z` (line 3) and then a missing semicolon at the trailing `1`
(line 9). -/
def c5ctoks : List Token :=
  [tk .TokVar "var" 1, tk .TokIdentifier "x" 1, tk .TokArray "array" 1,
   tk .TokLeftBracket "(" 1, tk .TokInteger "z" 3, tk .TokRightBracket ")" 1,
   tk .TokOf "of" 1, tk .TokInt "int" 1, tk .TokInteger "1" 9]

/-- The token sequence of `x [ ; ]` (the semicolon on line 2, the closing
bracket on line 3): the index expression fails first, and subscript's
unchecked expect(']') then overwrites that error. -/
def c5dtoks : List Token :=
  [tk .TokIdentifier "x" 1, tk .TokLeftSquare "[" 1, tk .TokSemiColon ";" 2,
   tk .TokRightSquare "]" 3]

/-- The token sequence of `a == b == c;`. -/
def c6aToks : List Token :=
  [tk .TokIdentifier "a" 1, tk .TokEquals "==" 1, tk .TokIdentifier "b" 1,
   tk .TokEquals "==" 1, tk .TokIdentifier "c" 1, tk .TokSemiColon ";" 1]

/-- The token sequence of `a < b < c;`, with the second `<` on line 2 so
that the reported error location singles it out. -/
def c6bToks : List Token :=
  [tk .TokIdentifier "a" 1, tk .TokLessThan "<" 1, tk .TokIdentifier "b" 1,
   tk .TokLessThan "<" 2, tk .TokIdentifier "c" 2, tk .TokSemiColon ";" 2]

/-- The token sequence of `if c1 if c2 x; else y;` (nested ifs without
braces, one else). -/
def c7toks : List Token :=
  [tk .TokIf "if" 1, tk .TokIdentifier "c1" 1, tk .TokIf "if" 1,
   tk .TokIdentifier "c2" 1, tk .TokIdentifier "x" 1, tk .TokSemiColon ";" 1,
   tk .TokElse "else" 1, tk .TokIdentifier "y" 1, tk .TokSemiColon ";" 1]

/-- The token sequence of `if c x;` (an if with no else clause). -/
def c8toks : List Token :=
  [tk .TokIf "if" 1, tk .TokIdentifier "c" 1, tk .TokIdentifier "x" 1,
   tk .TokSemiColon ";" 1]

/-- The single Assign token that lexing `"= "` produces. -/
def c9toks : List Token := [tk .TokAssign "=" 1]

/-! Helper lemmas. -/

/-- On all-whitespace input the lexer's next() skips everything and stops
with no token and no error. -/
lemma next_stop_of_all_space (fname : String) :
    ∀ rest : List Char, ∀ line : Nat, rest.all isSpace = true →
      next fname line rest = NextRes.stop := by
  intro rest
  induction rest with
  | nil => intro line _; rfl
  | cons c cs ih =>
    intro line h
    rw [List.all_cons, Bool.and_eq_true] at h
    simp only [next, h.1, if_true]
    exact ih _ h.2

/-- When the token list holds no else token, every statement (and statement
list) a parsing function returns has only defaulted else slots. -/
lemma ifElseDefaulted_of_noElse (toks : List Token)
    (hne : ∀ t ∈ toks, t.typ ≠ TokenType.TokElse) :
    ∀ fuel : Nat,
      (∀ st s st', pStatement toks fuel st = (some s, st') →
        ifElseDefaulted s = true) ∧
      (∀ st s st', pBlock toks fuel st = (some s, st') →
        ifElseDefaulted s = true) ∧
      (∀ st ss st', pBlockItems toks fuel st = (some ss, st') →
        ifElseDefaultedList ss = true) := by
  intro fuel
  induction fuel with
  | zero =>
    refine ⟨?_, ?_, ?_⟩ <;> intro st s st' h <;>
      simp [pStatement, pBlock, pBlockItems] at h
  | succ fuel ih =>
    obtain ⟨ihS, ihB, ihI⟩ := ih
    refine ⟨?_, ?_, ?_⟩
    · intro st s st' h
      simp only [pStatement] at h
      split at h
      · simp at h
      split at h
      · simp at h
      rename_i curr hget
      split at h
      · simp only [Prod.mk.injEq] at h
        obtain ⟨h1, -⟩ := h
        injection h1 with h1
        subst h1
        simp [ifElseDefaulted]
      · split at h
        · simp at h
        split at h
        · simp at h
        split at h
        · simp at h
        simp only [Prod.mk.injEq] at h
        obtain ⟨h1, -⟩ := h
        injection h1 with h1
        subst h1
        simp [ifElseDefaulted]
      · split at h
        · simp at h
        rename_i cond st2 hexp
        split at h
        · simp at h
        rename_i stmt1 st3 hstmt1
        split at h
        · simp only [Prod.mk.injEq] at h
          obtain ⟨h1, -⟩ := h
          injection h1 with h1
          subst h1
          simp only [ifElseDefaulted, Bool.and_eq_true]
          exact ⟨rfl, ihS _ _ _ hstmt1⟩
        rename_i t hget2
        split at h
        · rename_i hTe
          exact absurd hTe (hne t (List.get?_mem hget2))
        · simp only [Prod.mk.injEq] at h
          obtain ⟨h1, -⟩ := h
          injection h1 with h1
          subst h1
          simp only [ifElseDefaulted, Bool.and_eq_true]
          exact ⟨rfl, ihS _ _ _ hstmt1⟩
      · split at h
        · simp at h
        split at h
        · simp at h
        rename_i stmt st3 hstmt
        simp only [Prod.mk.injEq] at h
        obtain ⟨h1, -⟩ := h
        injection h1 with h1
        subst h1
        simp only [ifElseDefaulted]
        exact ihS _ _ _ hstmt
      · exact ihB _ _ _ h
      · split at h
        · simp at h
        split at h
        · simp at h
        split at h
        · simp at h
        rename_i middle hmid
        split at h
        · split at h
          · simp at h
          split at h
          · simp at h
          simp only [Prod.mk.injEq] at h
          obtain ⟨h1, -⟩ := h
          injection h1 with h1
          subst h1
          simp [ifElseDefaulted]
        · split at h
          · simp only [Prod.mk.injEq] at h
            obtain ⟨h1, -⟩ := h
            injection h1 with h1
            subst h1
            simp [ifElseDefaulted]
          · simp at h
    · intro st s st' h
      simp only [pBlock] at h
      split at h
      · simp at h
      split at h
      · simp at h
      rename_i stmts st2 hitems
      split at h
      · simp at h
      simp only [Prod.mk.injEq] at h
      obtain ⟨h1, -⟩ := h
      injection h1 with h1
      subst h1
      simp only [ifElseDefaulted]
      exact ihI _ _ _ hitems
    · intro st ss st' h
      simp only [pBlockItems] at h
      split at h
      · simp only [Prod.mk.injEq] at h
        obtain ⟨h1, -⟩ := h
        injection h1 with h1
        subst h1
        simp [ifElseDefaultedList]
      split at h
      · simp only [Prod.mk.injEq] at h
        obtain ⟨h1, -⟩ := h
        injection h1 with h1
        subst h1
        simp [ifElseDefaultedList]
      · split at h
        · simp at h
        rename_i s1 st1 hs1
        split at h
        · simp at h
        rename_i ss1 st2 hss1
        simp only [Prod.mk.injEq] at h
        obtain ⟨h1, -⟩ := h
        injection h1 with h1
        subst h1
        simp only [ifElseDefaultedList, Bool.and_eq_true]
        exact ⟨ihS _ _ _ hs1, ihI _ _ _ hss1⟩

/-- The statement list collected by the top-level parse loop has only
defaulted else slots when the token list holds no else token. -/
lemma parseLoop_ifElseDefaulted (toks : List Token)
    (hne : ∀ t ∈ toks, t.typ ≠ TokenType.TokElse) :
    ∀ fuel st, ifElseDefaultedList (pParseLoop toks fuel st).1 = true := by
  intro fuel
  induction fuel with
  | zero => intro st; simp [pParseLoop, ifElseDefaultedList]
  | succ fuel ih =>
    intro st
    simp only [pParseLoop]
    split
    · simp [ifElseDefaultedList]
    split
    · simp [ifElseDefaultedList]
    rename_i s1 st1 hs1
    show ifElseDefaultedList (s1 :: (pParseLoop toks fuel st1).1) = true
    simp only [ifElseDefaultedList, Bool.and_eq_true]
    exact ⟨(ifElseDefaulted_of_noElse toks hne fuel).1 _ _ _ hs1, ih st1⟩

/-! The claims. -/

/-- C1 counterexample: fed the token sequence of `&x[0]`, the parser's
expression rule returns a Subscript node whose Value field is the
address-of node — the result is `(&x)[0]`, not a unary address-of node
whose operand is a subscript node. -/
theorem c1_counterexample :
    (expressionEntry c1toks).1 =
      some (.subscript (.unary .unaryAddress (.variable ⟨"test", 1⟩ "x"))
        (.integer ⟨"test", 1⟩ "0")) ∧
    isAddrOfSubscript (expressionEntry c1toks).1 = false :=
  ⟨rfl, rfl⟩

/-- C1 (amended): every token sequence of the form `&` IDENT `[` INTEGER `]`
fed to the parser's expression rule yields a subscript node whose Value is
the address-of node over the identifier — the unary operand re-enters
terminal, and the trailing index loop of subscript then applies to the
whole unary expression, so `&x[0]` parses as `(&x)[0]`. -/
theorem c1_amp_subscript_shape :
    ∀ (s1 s2 s3 s4 s5 : SourceInformation) (name num : String),
      (expressionEntry [⟨.TokAmpersand, "&", s1⟩, ⟨.TokIdentifier, name, s2⟩,
        ⟨.TokLeftSquare, "[", s3⟩, ⟨.TokInteger, num, s4⟩,
        ⟨.TokRightSquare, "]", s5⟩]).1 =
      some (.subscript (.unary .unaryAddress (.variable s2 name))
        (.integer s4 num)) := by
  intros
  rfl

/-- C1 witness: the amended statement at the concrete tokens of `&x[0]`. -/
theorem c1_amp_subscript_shape_witness :
    (expressionEntry [⟨.TokAmpersand, "&", ⟨"test", 1⟩⟩,
      ⟨.TokIdentifier, "x", ⟨"test", 1⟩⟩, ⟨.TokLeftSquare, "[", ⟨"test", 1⟩⟩,
      ⟨.TokInteger, "0", ⟨"test", 1⟩⟩, ⟨.TokRightSquare, "]", ⟨"test", 1⟩⟩]).1 =
    some (.subscript (.unary .unaryAddress (.variable ⟨"test", 1⟩ "x"))
      (.integer ⟨"test", 1⟩ "0")) :=
  c1_amp_subscript_shape ⟨"test", 1⟩ ⟨"test", 1⟩ ⟨"test", 1⟩ ⟨"test", 1⟩
    ⟨"test", 1⟩ "x" "0"

/-- C2: evaluating the lexer at the claimed symbols.  `&`, `[`, `]`, `!=`
and a bare `!` are all rejected with "invalid character" (they are missing
from byteTokens and from the switch), and a lone `=` panics on the
unchecked lookahead; `==` and `+` do lex.  This contradicts the claim, the
spec's token model, and the package's own TestSymbolLex, which feeds `&`
and expects a TokAmpersand token. -/
theorem c2_symbol_lexing :
    Lex "test" "&" = .failed "invalid character: &" ∧
    Lex "test" "[" = .failed "invalid character: [" ∧
    Lex "test" "]" = .failed "invalid character: ]" ∧
    Lex "test" "!=" = .failed "invalid character: !" ∧
    Lex "test" "!" = .failed "invalid character: !" ∧
    Lex "test" "=" = .panicked ∧
    Lex "test" "==" = .ok [⟨.TokEquals, "==", ⟨"test", 1⟩⟩] ∧
    Lex "test" "+" = .ok [⟨.TokPlus, "+", ⟨"test", 1⟩⟩] :=
  ⟨rfl, rfl, rfl, rfl, rfl, rfl, rfl, rfl⟩

/-- C3: on a source whose final character is a single `=`, the lexer's
lookahead reads one byte past the end of the input (curr() has no bounds
check after pos++), a runtime index-out-of-range panic — it does not return
an Assign token. -/
theorem c3_assign_at_end_panics :
    Lex "test" "x =" = .panicked ∧ Lex "test" "=" = .panicked :=
  ⟨rfl, rfl⟩

/-- C4 counterexample: lex("test", "@") does return an error and no token
list, but the error value is exactly the string "invalid character: @",
which does not contain the rendered location "test:1" — the lexer's error()
never attaches the source location. -/
theorem c4_counterexample :
    Lex "test" "@" = .failed "invalid character: @" ∧
    strHasInfix ("invalid character: @").data ("test:1").data = false :=
  ⟨rfl, rfl⟩

/-- C4 (amended): lex("test", "@") returns an error and no token list; the
error reports the offending character (its message is
"invalid character: @") but carries no location or "file:line" prefix. -/
theorem c4_invalid_char_error :
    Lex "test" "@" = .failed "invalid character: @" :=
  rfl

/-- C5 (amended): whenever Parse returns an error, it returns no statement
list; and for the tokens of "var x ;" (the semicolon on line 2) the
returned error is the ParseError "unexpected ';'" located at the
semicolon.  (The returned error is the last failure recorded, not always
the first: see the C5 counterexample for the two overwriting paths.) -/
theorem c5_error_returns_no_list :
    (∀ toks e, (Parse toks).2 = some e → (Parse toks).1 = none) ∧
    Lex "test" "var x\n;" = .ok c5toks ∧
    Parse c5toks = (none, some ⟨⟨"test", 2⟩, "unexpected ';'"⟩) := by
  refine ⟨?_, rfl, rfl⟩
  intro toks e h
  unfold Parse at h ⊢
  rcases herr : (pParseLoop toks (parseFuel toks) ⟨0, none⟩).2.err with _ | e2
  · rw [herr] at h
    simp at h
  · rfl

/-- C5 witness: the universal part applied at the tokens of "var x ;". -/
theorem c5_error_returns_no_list_witness :
    (Parse c5toks).1 = none :=
  c5_error_returns_no_list.1 c5toks ⟨⟨"test", 2⟩, "unexpected ';'"⟩ rfl

/-- C5 counterexample to "the error returned is the first failure": two
independent overwriting paths.  Parsing `var x array ( z ) of int 1`,
typedecl encounters the invalid array size `z` first (line 3) and sets
that error but still returns a node and keeps parsing; the later
missing-semicolon failure at the trailing `1` (line 9) overwrites it, and
Parse returns the second error.  Parsing `x [ ; ]`, the index expression
fails first ("unexpected ';'", set by terminal at the line-2 semicolon);
subscript runs expect(']') without checking that failure, and Parse
returns the overwriting "expected ']', got ';'" instead. -/
theorem c5_counterexample :
    (pTypedecl c5ctoks (parseFuel c5ctoks) ⟨2, none⟩).2.err =
      some ⟨⟨"test", 3⟩, "invalid static array size 'z'"⟩ ∧
    (pTypedecl c5ctoks (parseFuel c5ctoks) ⟨2, none⟩).1.isSome = true ∧
    Parse c5ctoks = (none, some ⟨⟨"test", 9⟩, "expected ';', got '1'"⟩) ∧
    (pExpression c5dtoks (parseFuel c5dtoks) ⟨2, none⟩).2.err =
      some ⟨⟨"test", 2⟩, "unexpected ';'"⟩ ∧
    Parse c5dtoks = (none, some ⟨⟨"test", 2⟩, "expected ']', got ';'"⟩) :=
  ⟨rfl, rfl, rfl, rfl, rfl⟩

/-- C6: equality chains left-associatively — `a == b == c;` parses as
Equal(Equal(a, b), c) — while comparison does not chain: `a < b < c;` (the
second `<` on line 2) is rejected with "expected ';', got '<'" at the
second `<`. -/
theorem c6_equality_chains_comparison_does_not :
    Lex "test" "a == b == c;" = .ok c6aToks ∧
    Parse c6aToks =
      (some [.exprStmt (.binary .binaryEqual
        (.binary .binaryEqual (.variable ⟨"test", 1⟩ "a")
          (.variable ⟨"test", 1⟩ "b"))
        (.variable ⟨"test", 1⟩ "c"))], none) ∧
    Parse c6bToks = (none, some ⟨⟨"test", 2⟩, "expected ';', got '<'"⟩) :=
  ⟨rfl, rfl, rfl⟩

/-- C7: nested ifs without braces — on the token pattern
`if c1 if c2 x; else y;` the else attaches to the innermost if (its
Statement2 is the statement of `y`), and the outer if's Statement2 is the
Empty statement. -/
theorem c7_dangling_else_innermost :
    ∀ (s1 s2 s3 s4 s5 s6 s7 s8 s9 : SourceInformation) (c1 c2 x y : String),
      Parse [⟨.TokIf, "if", s1⟩, ⟨.TokIdentifier, c1, s2⟩, ⟨.TokIf, "if", s3⟩,
        ⟨.TokIdentifier, c2, s4⟩, ⟨.TokIdentifier, x, s5⟩,
        ⟨.TokSemiColon, ";", s6⟩, ⟨.TokElse, "else", s7⟩,
        ⟨.TokIdentifier, y, s8⟩, ⟨.TokSemiColon, ";", s9⟩] =
      (some [.ifStmt s1 (.variable s2 c1)
        (.ifStmt s3 (.variable s4 c2) (.exprStmt (.variable s5 x))
          (.exprStmt (.variable s8 y)))
        (.empty ⟨"", 0⟩)], none) := by
  intros
  rfl

/-- C7 witness: the dangling-else statement at concrete tokens. -/
theorem c7_dangling_else_innermost_witness :
    Parse c7toks =
      (some [.ifStmt ⟨"test", 1⟩ (.variable ⟨"test", 1⟩ "c1")
        (.ifStmt ⟨"test", 1⟩ (.variable ⟨"test", 1⟩ "c2")
          (.exprStmt (.variable ⟨"test", 1⟩ "x"))
          (.exprStmt (.variable ⟨"test", 1⟩ "y")))
        (.empty ⟨"", 0⟩)], none) :=
  c7_dangling_else_innermost ⟨"test", 1⟩ ⟨"test", 1⟩ ⟨"test", 1⟩ ⟨"test", 1⟩
    ⟨"test", 1⟩ ⟨"test", 1⟩ ⟨"test", 1⟩ ⟨"test", 1⟩ ⟨"test", 1⟩
    "c1" "c2" "x" "y"

/-- C8: when a successful parse never saw an else token, every IfStatement
node anywhere in the returned statements has the Empty statement (the
parser's zero-valued default) in its Statement2 slot; and on the concrete
pattern `if IDENT IDENT ;` the if node is built with exactly that Empty
default.  (In this embedding the Statement2 field of an if node is a
statement by type, mirroring that the parser only ever stores the Empty
default or a successfully parsed statement there, never nil.) -/
theorem c8_no_else_yields_empty_slot :
    (∀ toks ss, (∀ t ∈ toks, t.typ ≠ TokenType.TokElse) →
      Parse toks = (some ss, none) → ifElseDefaultedList ss = true) ∧
    (∀ (s1 s2 s3 s4 : SourceInformation) (c x : String),
      Parse [⟨.TokIf, "if", s1⟩, ⟨.TokIdentifier, c, s2⟩,
        ⟨.TokIdentifier, x, s3⟩, ⟨.TokSemiColon, ";", s4⟩] =
      (some [.ifStmt s1 (.variable s2 c) (.exprStmt (.variable s3 x))
        (.empty ⟨"", 0⟩)], none)) := by
  constructor
  · intro toks ss hne hp
    unfold Parse at hp
    rcases herr : (pParseLoop toks (parseFuel toks) ⟨0, none⟩).2.err with _ | e
    · rw [herr] at hp
      simp only [Prod.mk.injEq, Option.some.injEq] at hp
      obtain ⟨h1, -⟩ := hp
      subst h1
      exact parseLoop_ifElseDefaulted toks hne (parseFuel toks) ⟨0, none⟩
    · rw [herr] at hp
      simp at hp
  · intros
    rfl

/-- C8 witness: both parts at the concrete tokens of `if c x;`. -/
theorem c8_no_else_yields_empty_slot_witness :
    ifElseDefaultedList [.ifStmt ⟨"test", 1⟩ (.variable ⟨"test", 1⟩ "c")
      (.exprStmt (.variable ⟨"test", 1⟩ "x")) (.empty ⟨"", 0⟩)] = true :=
  c8_no_else_yields_empty_slot.1 c8toks
    [.ifStmt ⟨"test", 1⟩ (.variable ⟨"test", 1⟩ "c")
      (.exprStmt (.variable ⟨"test", 1⟩ "x")) (.empty ⟨"", 0⟩)]
    (by decide) rfl

/-- C9: lexing "= " (an Assign token followed by whitespace) succeeds with
the single token `=`; joining the returned lexemes with a single space
gives "=", and re-lexing that panics on the unchecked `=` lookahead — the
round-trip does not reproduce the token stream. -/
theorem c9_relex_of_assign_panics :
    Lex "test" "= " = .ok c9toks ∧
    Lex "test" (String.intercalate " " (c9toks.map Token.value)) = .panicked :=
  ⟨rfl, rfl⟩

/-- C10: lexing the empty string or an all-whitespace string yields an
empty token sequence and no error, and parsing an empty token sequence
yields an empty statement sequence and no error. -/
theorem c10_empty_inputs :
    (∀ fname, Lex fname "" = .ok []) ∧
    (∀ fname s, s.data.all isSpace = true → Lex fname s = .ok []) ∧
    Parse [] = (some [], none) := by
  refine ⟨fun _ => rfl, ?_, rfl⟩
  intro fname s h
  unfold Lex
  rw [lexLoop]
  rcases hd : s.data with _ | ⟨c, cs⟩
  · rfl
  · rw [hd] at h
    rw [next_stop_of_all_space fname (c :: cs) 1 h]
    rfl

/-- C10 witness: the all-whitespace part at a concrete string. -/
theorem c10_empty_inputs_witness :
    Lex "test" " \n\t " = .ok [] :=
  c10_empty_inputs.2.1 "test" " \n\t " (by decide)

end Compiler
